import Mathlib

/-!
Shallow embedding of the AppDash crypto dashboard (`src/app.py`).

The program is a Dash application that polls the Binance public API for a
spot price and for kline (candle) history, caches the last successful
result per request key with a timestamp (TTL cache with stale fallback on
exceptions), and renders the results through three callbacks.

Modelling decisions:
- `time.time()` values and prices (Python floats / decimal strings) are
  embedded as rationals (`ℚ`).
- An HTTP fetch attempt is embedded as an explicit outcome value: either
  the `requests.get` call raised (network/transport failure), or a
  response arrived with a status code, a body text, and a payload whose
  JSON/field parsing may itself raise.  Exception objects are represented
  by their type name (`type(e).__name__`), which is all the program uses.
- The module-level dicts `_price_cache` / `_klines_cache` are embedded as
  functions from key to `Option` entry, passed in and returned explicitly.
- Each cache operation additionally reports whether the fetch function was
  invoked (`fetched`), embedding "the HTTP request was (not) made".
-/

set_option maxRecDepth 4000

namespace AppDash

/-- `REFRESH_SECONDS = 60` (app.py line 9): price refresh period in seconds. -/
def REFRESH_SECONDS : Nat := 60

/-- Outcome of one price fetch attempt (`requests.get` + status check +
`float(r.json()["price"])` in `get_price`).  `netFail e` embeds the GET
itself raising exception type `e`; `resp status body payload` embeds a
received response, where `payload` is the result of parsing
(`r.json()` / `data["price"]` / `float`), which may raise. -/
inductive PriceWire where
  | netFail (exnName : String)
  | resp (status : Nat) (body : String) (payload : Except String ℚ)

/-- One raw kline row as the program reads it: `k[0]` (open time, ms) and
the parse of `float(k[4])` (close), which may raise. -/
structure RawKline where
  openTimeMs : Nat
  close : Except String ℚ

/-- Outcome of one klines fetch attempt (`requests.get` + status check +
`r.json()` in `get_klines`). -/
inductive KlinesWire where
  | netFail (exnName : String)
  | resp (status : Nat) (body : String) (payload : Except String (List RawKline))

/-- One `_price_cache` entry: `{"ts": float, "price": float}` (app.py line 45). -/
structure PriceEntry where
  ts : ℚ
  price : ℚ
deriving DecidableEq

/-- The `_price_cache` dict, `symbol -> entry` (app.py line 45). -/
abbrev PriceCache := String → Option PriceEntry

/-- Everything a `get_price` call produces: the returned `(value, error)`
pair, the cache state after the call, and whether the HTTP fetch ran. -/
structure PriceResult where
  value : Option ℚ
  error : String
  cache : PriceCache
  fetched : Bool

/-- The body of `get_price` from the `try:` onwards (app.py lines 58-70),
with the earlier lookup result `c` in scope as in the source. -/
def priceFetchRun (symbol : String) (now : ℚ) (c : Option PriceEntry)
    (st : PriceCache) (wire : PriceWire) : PriceResult :=
  match wire with
  | .resp status body payload =>
    if status ≠ 200 then
      ⟨none, "Binance HTTP " ++ toString status ++ ": " ++ body.take 200, st, true⟩
    else
      match payload with
      | .ok price =>
        ⟨some price, "", fun s => if s = symbol then some ⟨now, price⟩ else st s, true⟩
      | .error e =>
        match c with
        | some entry =>
          ⟨some entry.price,
            "Error consultando Binance (" ++ e ++ "). Mostrando último valor.", st, true⟩
        | none => ⟨none, "Error consultando Binance (" ++ e ++ ").", st, true⟩
  | .netFail e =>
    match c with
    | some entry =>
      ⟨some entry.price,
        "Error consultando Binance (" ++ e ++ "). Mostrando último valor.", st, true⟩
    | none => ⟨none, "Error consultando Binance (" ++ e ++ ").", st, true⟩

/-- `get_price(symbol, ttl=20)` (app.py lines 51-70).  `fetch symbol` is the
outcome the HTTP layer would produce for this symbol. -/
def get_price (st : PriceCache) (symbol : String) (now ttl : ℚ)
    (fetch : String → PriceWire) : PriceResult :=
  match st symbol with
  | some c =>
    if now - c.ts < ttl then ⟨some c.price, "", st, false⟩
    else priceFetchRun symbol now (some c) st (fetch symbol)
  | none => priceFetchRun symbol now none st (fetch symbol)

/-- One `_klines_cache` entry: `{"ts": float, "data": (xs, ys)}` (app.py
line 46); `xs` are the UTC timestamps (seconds, = open time ms / 1000) and
`ys` the close prices. -/
structure KEntry where
  ts : ℚ
  data : List ℚ × List ℚ

/-- The `_klines_cache` dict, `(symbol, days) -> entry` (app.py line 46). -/
abbrev KCache := String × Int → Option KEntry

/-- Everything a `get_klines` call produces. -/
structure KResult where
  value : Option (List ℚ × List ℚ)
  error : String
  cache : KCache
  fetched : Bool

/-- The period-to-sampling mapping of `get_klines` (app.py lines 82-87). -/
def intervalLimit (days : Int) : String × Int :=
  if days ≤ 7 then ("1h", min 1000 (days * 24))
  else ("4h", min 1000 (days * 6))

/-- The two comprehensions of `get_klines` (app.py lines 114-115):
`xs = [datetime.fromtimestamp(k[0]/1000, tz=utc) ...]`, `ys = [float(k[4]) ...]`.
A timestamp is embedded as its epoch seconds (`k[0]/1000`).  A `float`
parse failure in any row raises, which the caller's `except` catches. -/
def convertRows : List RawKline → Except String (List ℚ × List ℚ)
  | [] => Except.ok ([], [])
  | k :: rest =>
    match k.close with
    | .error e => .error e
    | .ok y =>
      match convertRows rest with
      | .error e => .error e
      | .ok (xs, ys) => .ok (((k.openTimeMs : ℚ) / 1000) :: xs, y :: ys)

/-- The body of `get_klines` from the `try:` onwards (app.py lines 92-122). -/
def klinesFetchRun (key : String × Int) (now : ℚ) (c : Option KEntry)
    (st : KCache) (wire : KlinesWire) : KResult :=
  match wire with
  | .resp status body payload =>
    if status ≠ 200 then
      ⟨none, "Binance HTTP " ++ toString status ++ ": " ++ body.take 200, st, true⟩
    else
      match payload with
      | .error e =>
        match c with
        | some entry =>
          ⟨some entry.data,
            "Error consultando klines (" ++ e ++ "). Mostrando cache.", st, true⟩
        | none => ⟨none, "Error consultando klines (" ++ e ++ ").", st, true⟩
      | .ok [] => ⟨none, "Sin datos de klines.", st, true⟩
      | .ok rows =>
          match convertRows rows with
          | .error e =>
            match c with
            | some entry =>
              ⟨some entry.data,
                "Error consultando klines (" ++ e ++ "). Mostrando cache.", st, true⟩
            | none => ⟨none, "Error consultando klines (" ++ e ++ ").", st, true⟩
          | .ok data =>
            ⟨some data, "", fun k => if k = key then some ⟨now, data⟩ else st k, true⟩
  | .netFail e =>
    match c with
    | some entry =>
      ⟨some entry.data,
        "Error consultando klines (" ++ e ++ "). Mostrando cache.", st, true⟩
    | none => ⟨none, "Error consultando klines (" ++ e ++ ").", st, true⟩

/-- `get_klines(symbol, days, ttl=120)` (app.py lines 72-122).  The fetch
oracle receives the computed `(interval, limit)` request parameters. -/
def get_klines (st : KCache) (symbol : String) (days : Int) (now ttl : ℚ)
    (fetch : String → Int → KlinesWire) : KResult :=
  match st (symbol, days) with
  | some c =>
    if now - c.ts < ttl then ⟨some c.data, "", st, false⟩
    else
      klinesFetchRun (symbol, days) now (some c) st
        (fetch (intervalLimit days).1 (intervalLimit days).2)
  | none =>
    klinesFetchRun (symbol, days) now none st
      (fetch (intervalLimit days).1 (intervalLimit days).2)

/-! ### Python number formatting: `f"{price:,.6f}"` -/

/-- Left-pad a string with zeros to length `k` (digit-group padding). -/
def padZeros (k : Nat) (s : String) : String :=
  String.mk (List.replicate (k - s.length) '0') ++ s

/-- Split a reversed digit list into groups of three (least significant
group first), as the thousands grouping of Python `format(n, ",")` does. -/
def chunk3 : List Char → List (List Char)
  | [] => []
  | [a] => [[a]]
  | [a, b] => [[a, b]]
  | a :: b :: c :: rest => [a, b, c] :: chunk3 rest

/-- Render a natural number in decimal with `,` as thousands separator,
as Python `f"{n:,}"` does for a nonnegative integer part. -/
def commaGroup (n : Nat) : String :=
  String.mk (List.intercalate [','] (((chunk3 (toString n).data.reverse).map List.reverse).reverse))

/-- Round `q * 10^6` to the nearest integer, ties to even: the rounding
Python applies when formatting a value with `.6f`.  Computed directly on
the numerator and denominator (`q * 10^6 = (num * 10^6) / den`): the
floor is `(num * 10^6).fdiv den`, and the remainder `r` against the
denominator decides the direction (`2r < den` down, `2r > den` up, tie to
the even neighbour). -/
def pyRound6 (q : ℚ) : ℤ :=
  let n : ℤ := q.num * 1000000
  let d : ℤ := (q.den : ℤ)
  let f : ℤ := n.fdiv d
  let r : ℤ := n - f * d
  if 2 * r < d then f
  else if d < 2 * r then f + 1
  else if f % 2 = 0 then f else f + 1

/-- Python `f"{x:,.6f}"`: fixed six decimal places, thousands separator in
the integer part. -/
def formatCommaF6 (q : ℚ) : String :=
  let n := pyRound6 q
  if n < 0 then
    "-" ++ commaGroup (n.natAbs / 1000000) ++ "." ++ padZeros 6 (toString (n.natAbs % 1000000))
  else
    commaGroup (n.toNat / 1000000) ++ "." ++ padZeros 6 (toString (n.toNat % 1000000))

/-! ### The Dash callbacks -/

/-- `actualizar_precio` (app.py lines 209-219): returns the children of the
`precio` heading and of the `error-precio` block. -/
def actualizar_precio (st : PriceCache) (now ttl : ℚ) (fetch : String → PriceWire)
    (symbol : String) : String × String :=
  let r := get_price st symbol now ttl fetch
  match r.value with
  | none => ("—", r.error)
  | some price => (symbol ++ " = " ++ formatCommaF6 price ++ " USDT", r.error)

/-- `actualizar_countdown` (app.py lines 221-228). -/
def actualizar_countdown (ticks : Nat) : String :=
  toString (REFRESH_SECONDS - ticks % REFRESH_SECONDS) ++ "s"

/-- The spec formula for the countdown, written from the spec text:
`secondsRemaining(tickCount, periodSeconds) = periodSeconds - (tickCount mod periodSeconds)`. -/
def secondsRemaining (tickCount periodSeconds : Nat) : Nat :=
  periodSeconds - tickCount % periodSeconds

/-- A Plotly figure as `actualizar_historico` builds it: its traces (each a
named line with x and y data) and the layout titles it sets. -/
structure Figure where
  traces : List (String × List ℚ × List ℚ)
  title : String
  xaxisTitle : String
  yaxisTitle : String

/-- `actualizar_historico` (app.py lines 230-256): returns the figure of
`hist-graph` and the children of `error-hist`. -/
def actualizar_historico (st : KCache) (now ttl : ℚ) (fetch : String → Int → KlinesWire)
    (symbol : String) (days : Int) : Figure × String :=
  let r := get_klines st symbol days now ttl fetch
  match r.value with
  | none =>
    (⟨[], symbol ++ " - últimos " ++ toString days ++ " días", "Tiempo", "Close (USDT)"⟩,
      r.error)
  | some (x, y) =>
    (⟨[(symbol, x, y)], symbol ++ " - últimos " ++ toString days ++ " días",
      "Tiempo (UTC)", "Close (USDT)"⟩, r.error)

/-! ### Failure predicates on fetch outcomes -/

/-- The price fetch attempt failed for some failure kind: the GET raised,
a non-2xx status arrived, or a 2xx response's payload failed to parse. -/
def priceFails : PriceWire → Prop
  | .netFail _ => True
  | .resp _ _ (.error _) => True
  | .resp status _ (.ok _) => status ≠ 200

/-- The price fetch attempt raised an exception that reaches the `except`
block of `get_price`: the GET itself raised (network/transport failure)
or a 200 response's payload was unparsable.  A non-2xx response returns
earlier and never raises. -/
def priceRaises : PriceWire → Prop
  | .netFail _ => True
  | .resp status _ (.error _) => status = 200
  | .resp _ _ (.ok _) => False

/-- The klines fetch attempt failed: the GET raised, a non-2xx status
arrived, the payload failed to parse, the list was empty, or a row
conversion raised. -/
def klinesFails : KlinesWire → Prop
  | .netFail _ => True
  | .resp _ _ (.error _) => True
  | .resp status _ (.ok rows) =>
    status ≠ 200 ∨ rows = [] ∨ ∃ e, convertRows rows = .error e

/-- The klines fetch attempt raised an exception that reaches the `except`
block of `get_klines`: the GET raised, or a 200 response's JSON payload
was unparsable, or a row conversion (`float(k[4])`) raised on a
nonempty 200-response list. -/
def klinesRaises : KlinesWire → Prop
  | .netFail _ => True
  | .resp status _ (.error _) => status = 200
  | .resp status _ (.ok rows) =>
    status = 200 ∧ rows ≠ [] ∧ ∃ e, convertRows rows = .error e

/-- No stored entry for this key is fresh enough to satisfy the TTL
check, so a call performs the fetch. -/
def noFreshHitP (st : PriceCache) (symbol : String) (now ttl : ℚ) : Prop :=
  ∀ c, st symbol = some c → ¬(now - c.ts < ttl)

/-- No stored klines entry for this key is fresh enough to satisfy the
TTL check, so a call performs the fetch. -/
def noFreshHitK (st : KCache) (key : String × Int) (now ttl : ℚ) : Prop :=
  ∀ c, st key = some c → ¬(now - c.ts < ttl)

/-- Well-formedness of the klines cache: every stored series is nonempty
and its timestamp and close lists have equal length.  It holds for the
initial empty cache and is preserved by `get_klines`
(`KCacheWF_preserved`). -/
def KCacheWF (st : KCache) : Prop :=
  ∀ k e, st k = some e → e.data.1 ≠ [] ∧ e.data.1.length = e.data.2.length

end AppDash

namespace AppDash

/-! ### Helper lemmas -/

theorem append_ne_empty_left (s t : String) (h : s ≠ "") : s ++ t ≠ "" := by
  intro he
  apply h
  have hd := congrArg String.data he
  simp only [String.data_append] at hd
  exact String.ext (List.append_eq_nil.mp hd).1

theorem convertRows_lengths (rows : List RawKline) :
    ∀ xs ys, convertRows rows = .ok (xs, ys) → xs.length = ys.length := by
  induction rows with
  | nil =>
    intro xs ys h
    simp only [convertRows] at h
    cases h
    rfl
  | cons k rest ih =>
    intro xs ys h
    simp only [convertRows] at h
    cases hk : k.close with
    | error e => rw [hk] at h; cases h
    | ok y =>
      rw [hk] at h
      cases hr : convertRows rest with
      | error e => rw [hr] at h; cases h
      | ok p =>
        obtain ⟨xs0, ys0⟩ := p
        rw [hr] at h
        cases h
        simpa using ih xs0 ys0 hr

theorem convertRows_ne_nil (k : RawKline) (rest : List RawKline) :
    ∀ xs ys, convertRows (k :: rest) = .ok (xs, ys) → xs ≠ [] := by
  intro xs ys h
  simp only [convertRows] at h
  cases hk : k.close with
  | error e => rw [hk] at h; cases h
  | ok y =>
    rw [hk] at h
    cases hr : convertRows rest with
    | error e => rw [hr] at h; cases h
    | ok p =>
      obtain ⟨xs0, ys0⟩ := p
      rw [hr] at h
      cases h
      simp

/-! ### Claim theorems -/

/-- **C8**: the countdown callback renders exactly
`secondsRemaining(tickCount, 60) = 60 - (tickCount mod 60)` followed by
`"s"`; for every tick count the value lies in `[1, 60]` and the function
is periodic with period 60. -/
theorem countdown_spec (t : Nat) :
    actualizar_countdown t = toString (secondsRemaining t 60) ++ "s" ∧
    1 ≤ secondsRemaining t 60 ∧ secondsRemaining t 60 ≤ 60 ∧
    secondsRemaining (t + 60) 60 = secondsRemaining t 60 := by
  refine ⟨rfl, ?_, ?_, ?_⟩
  · have : t % 60 < 60 := Nat.mod_lt _ (by omega)
    simp only [secondsRemaining]
    omega
  · simp only [secondsRemaining]
    omega
  · simp only [secondsRemaining, Nat.add_mod_right]

/-- **C2**: `get_klines` maps `days ≤ 7` to interval `"1h"` with limit
`min 1000 (days * 24)` and `days > 7` to interval `"4h"` with limit
`min 1000 (days * 6)`; in particular `days = 1` gives `("1h", 24)` and
`days = 30` gives `("4h", 180)`. -/
theorem interval_limit_mapping :
    (∀ days : Int, days ≤ 7 → intervalLimit days = ("1h", min 1000 (days * 24))) ∧
    (∀ days : Int, 7 < days → intervalLimit days = ("4h", min 1000 (days * 6))) ∧
    intervalLimit 1 = ("1h", 24) ∧ intervalLimit 30 = ("4h", 180) := by
  refine ⟨?_, ?_, by decide, by decide⟩
  · intro days h
    simp [intervalLimit, h]
  · intro days h
    rw [intervalLimit, if_neg (by omega)]

/-- Witness for **C2** at the concrete periods of the dropdown. -/
theorem interval_limit_mapping_witness :
    intervalLimit 1 = ("1h", min 1000 (1 * 24)) ∧
    intervalLimit 30 = ("4h", min 1000 (30 * 6)) :=
  ⟨interval_limit_mapping.1 1 (by decide), interval_limit_mapping.2.1 30 (by decide)⟩

theorem priceFetchRun_fetched (symbol : String) (now : ℚ) (c : Option PriceEntry)
    (st : PriceCache) (w : PriceWire) : (priceFetchRun symbol now c st w).fetched = true := by
  cases w with
  | netFail e => cases c <;> rfl
  | resp status body payload =>
    simp only [priceFetchRun]
    split
    · rfl
    · cases payload with
      | ok p => rfl
      | error e => cases c <;> rfl

theorem klinesFetchRun_fetched (key : String × Int) (now : ℚ) (c : Option KEntry)
    (st : KCache) (w : KlinesWire) : (klinesFetchRun key now c st w).fetched = true := by
  cases w with
  | netFail e => cases c <;> rfl
  | resp status body payload =>
    simp only [klinesFetchRun]
    split
    · rfl
    · cases payload with
      | error e => cases c <;> rfl
      | ok rows =>
        cases rows with
        | nil => rfl
        | cons r rest =>
          simp only
          split
          · cases c <;> rfl
          · rfl

/-- **C3**: a call whose stored entry is younger than the TTL returns
exactly the stored value with an empty error, leaves the cache unchanged,
and does not invoke the HTTP fetch. -/
theorem cache_hit_within_ttl :
    (∀ (st : PriceCache) (symbol : String) (now ttl : ℚ) (fetch : String → PriceWire)
      (c : PriceEntry), st symbol = some c → now - c.ts < ttl →
      get_price st symbol now ttl fetch = ⟨some c.price, "", st, false⟩) ∧
    (∀ (st : KCache) (symbol : String) (days : Int) (now ttl : ℚ)
      (fetch : String → Int → KlinesWire) (c : KEntry),
      st (symbol, days) = some c → now - c.ts < ttl →
      get_klines st symbol days now ttl fetch = ⟨some c.data, "", st, false⟩) := by
  constructor
  · intro st symbol now ttl fetch c hc h
    simp [get_price, hc, h]
  · intro st symbol days now ttl fetch c hc h
    simp [get_klines, hc, h]

/-- Witness cache for `get_price`: one entry for BTCUSDT, price 7, stored
at time 0. -/
def stPW : PriceCache := fun s => if s = "BTCUSDT" then some ⟨0, 7⟩ else none

/-- Witness cache for `get_klines`: one entry for (BTCUSDT, 7 days). -/
def stKW : KCache := fun k => if k = ("BTCUSDT", 7) then some ⟨0, ([1, 2], [10, 20])⟩ else none

/-- Empty witness caches. -/
def stP0 : PriceCache := fun _ => none

def stK0 : KCache := fun _ => none

/-- A price fetch oracle whose GET always raises `ConnectionError`. -/
def fetchPW : String → PriceWire := fun _ => PriceWire.netFail "ConnectionError"

/-- A klines fetch oracle whose GET always raises `ConnectionError`. -/
def fetchKW : String → Int → KlinesWire := fun _ _ => KlinesWire.netFail "ConnectionError"

/-- Witness for **C3**: at time 5 with TTL 20 (resp. 120), the entries
stored at time 0 are served without fetching. -/
theorem cache_hit_within_ttl_witness :
    ((5 : ℚ) - 0 < 20) ∧
    get_price stPW "BTCUSDT" 5 20 fetchPW = ⟨some 7, "", stPW, false⟩ ∧
    get_klines stKW "BTCUSDT" 7 5 120 fetchKW = ⟨some ([1, 2], [10, 20]), "", stKW, false⟩ := by
  refine ⟨by norm_num, ?_, ?_⟩
  · exact cache_hit_within_ttl.1 stPW "BTCUSDT" 5 20 fetchPW ⟨0, 7⟩ rfl (by norm_num)
  · exact cache_hit_within_ttl.2 stKW "BTCUSDT" 7 5 120 fetchKW ⟨0, ([1, 2], [10, 20])⟩
      rfl (by norm_num)

/-- **C7**: a call with no stored entry whose fetch attempt fails (any
failure kind) returns no value and a non-empty error message. -/
theorem miss_failure_returns_error :
    (∀ (st : PriceCache) (symbol : String) (now ttl : ℚ) (fetch : String → PriceWire),
      st symbol = none → priceFails (fetch symbol) →
      (get_price st symbol now ttl fetch).value = none ∧
      (get_price st symbol now ttl fetch).error ≠ "") ∧
    (∀ (st : KCache) (symbol : String) (days : Int) (now ttl : ℚ)
      (fetch : String → Int → KlinesWire),
      st (symbol, days) = none →
      klinesFails (fetch (intervalLimit days).1 (intervalLimit days).2) →
      (get_klines st symbol days now ttl fetch).value = none ∧
      (get_klines st symbol days now ttl fetch).error ≠ "") := by
  constructor
  · intro st symbol now ttl fetch hnone hfail
    simp only [get_price, hnone]
    cases hw : fetch symbol with
    | netFail e =>
      refine ⟨rfl, ?_⟩
      exact append_ne_empty_left _ _ (append_ne_empty_left _ _ (by decide))
    | resp status body payload =>
      rw [hw] at hfail
      by_cases hs : status = 200
      · cases payload with
        | ok p => simp [priceFails, hs] at hfail
        | error e =>
          subst hs
          refine ⟨rfl, ?_⟩
          exact append_ne_empty_left _ _ (append_ne_empty_left _ _ (by decide))
      · simp only [priceFetchRun, if_pos hs]
        refine ⟨by trivial, ?_⟩
        exact append_ne_empty_left _ _ (append_ne_empty_left _ _
          (append_ne_empty_left _ _ (by decide)))
  · intro st symbol days now ttl fetch hnone hfail
    simp only [get_klines, hnone]
    cases hw : fetch (intervalLimit days).1 (intervalLimit days).2 with
    | netFail e =>
      refine ⟨rfl, ?_⟩
      exact append_ne_empty_left _ _ (append_ne_empty_left _ _ (by decide))
    | resp status body payload =>
      rw [hw] at hfail
      by_cases hs : status = 200
      · cases payload with
        | error e =>
          subst hs
          refine ⟨rfl, ?_⟩
          exact append_ne_empty_left _ _ (append_ne_empty_left _ _ (by decide))
        | ok rows =>
          subst hs
          simp only [klinesFails] at hfail
          rcases hfail with h200 | hrows | ⟨e, he⟩
          · omega
          · subst hrows
            exact ⟨rfl, (by decide : ("Sin datos de klines." : String) ≠ "")⟩
          · cases rows with
            | nil => exact ⟨rfl, (by decide : ("Sin datos de klines." : String) ≠ "")⟩
            | cons r rest =>
              simp only [klinesFetchRun, if_neg (by omega : ¬(200 : Nat) ≠ 200), he]
              refine ⟨by trivial, ?_⟩
              exact append_ne_empty_left _ _ (append_ne_empty_left _ _ (by decide))
      · simp only [klinesFetchRun, if_pos hs]
        refine ⟨by trivial, ?_⟩
        exact append_ne_empty_left _ _ (append_ne_empty_left _ _
          (append_ne_empty_left _ _ (by decide)))

/-- Case analysis on a price fetch attempt: either it succeeded (and the
result carries the fresh value and writes it to the cache at `now`), or
the cache is unchanged and the error is non-empty. -/
theorem priceFetchRun_disj (symbol : String) (now : ℚ) (c : Option PriceEntry)
    (st : PriceCache) (w : PriceWire) :
    (∃ p, priceFetchRun symbol now c st w =
        ⟨some p, "", fun s => if s = symbol then some ⟨now, p⟩ else st s, true⟩) ∨
    ((priceFetchRun symbol now c st w).cache = st ∧
      (priceFetchRun symbol now c st w).error ≠ "" ∧
      ((priceFetchRun symbol now c st w).value = none ∨
        ∃ entry, c = some entry ∧
          (priceFetchRun symbol now c st w).value = some entry.price)) := by
  cases w with
  | netFail e =>
    right
    cases c with
    | none =>
      exact ⟨rfl, append_ne_empty_left _ _ (append_ne_empty_left _ _ (by decide)), .inl rfl⟩
    | some entry =>
      exact ⟨rfl, append_ne_empty_left _ _ (append_ne_empty_left _ _ (by decide)),
        .inr ⟨entry, rfl, rfl⟩⟩
  | resp status body payload =>
    by_cases hs : status = 200
    · cases payload with
      | ok p =>
        left
        subst hs
        exact ⟨p, by simp [priceFetchRun]⟩
      | error e =>
        right
        subst hs
        cases c with
        | none =>
          exact ⟨rfl, append_ne_empty_left _ _ (append_ne_empty_left _ _ (by decide)), .inl rfl⟩
        | some entry =>
          exact ⟨rfl, append_ne_empty_left _ _ (append_ne_empty_left _ _ (by decide)),
            .inr ⟨entry, rfl, rfl⟩⟩
    · right
      simp only [priceFetchRun, if_pos hs]
      exact ⟨by trivial, append_ne_empty_left _ _ (append_ne_empty_left _ _
        (append_ne_empty_left _ _ (by decide))), .inl (by trivial)⟩

/-- Case analysis on a klines fetch attempt: either it succeeded on a
nonempty row list that converts cleanly (and the result carries the
converted series and writes it to the cache at `now`), or the cache is
unchanged, the error is non-empty, and the value is either absent or the
stored series. -/
theorem klinesFetchRun_disj (key : String × Int) (now : ℚ) (c : Option KEntry)
    (st : KCache) (w : KlinesWire) :
    (∃ body r rest d, w = KlinesWire.resp 200 body (Except.ok (r :: rest)) ∧
      convertRows (r :: rest) = .ok d ∧
      klinesFetchRun key now c st w =
        ⟨some d, "", fun k => if k = key then some ⟨now, d⟩ else st k, true⟩) ∨
    ((klinesFetchRun key now c st w).cache = st ∧
      (klinesFetchRun key now c st w).error ≠ "" ∧
      ((klinesFetchRun key now c st w).value = none ∨
        ∃ entry, c = some entry ∧
          (klinesFetchRun key now c st w).value = some entry.data)) := by
  cases w with
  | netFail e =>
    right
    cases c with
    | none =>
      exact ⟨rfl, append_ne_empty_left _ _ (append_ne_empty_left _ _ (by decide)), .inl rfl⟩
    | some entry =>
      exact ⟨rfl, append_ne_empty_left _ _ (append_ne_empty_left _ _ (by decide)),
        .inr ⟨entry, rfl, rfl⟩⟩
  | resp status body payload =>
    by_cases hs : status = 200
    · cases payload with
      | error e =>
        right
        subst hs
        cases c with
        | none =>
          exact ⟨rfl, append_ne_empty_left _ _ (append_ne_empty_left _ _ (by decide)), .inl rfl⟩
        | some entry =>
          exact ⟨rfl, append_ne_empty_left _ _ (append_ne_empty_left _ _ (by decide)),
            .inr ⟨entry, rfl, rfl⟩⟩
      | ok rows =>
        subst hs
        cases rows with
        | nil =>
          right
          exact ⟨rfl, (by decide : ("Sin datos de klines." : String) ≠ ""), .inl rfl⟩
        | cons r rest =>
          cases hcv : convertRows (r :: rest) with
          | error e =>
            right
            simp only [klinesFetchRun, if_neg (by omega : ¬(200 : Nat) ≠ 200), hcv]
            cases c with
            | none =>
              exact ⟨rfl, append_ne_empty_left _ _ (append_ne_empty_left _ _ (by decide)),
                .inl rfl⟩
            | some entry =>
              exact ⟨rfl, append_ne_empty_left _ _ (append_ne_empty_left _ _ (by decide)),
                .inr ⟨entry, rfl, rfl⟩⟩
          | ok d =>
            left
            refine ⟨body, r, rest, d, rfl, hcv, ?_⟩
            simp only [klinesFetchRun, if_neg (by omega : ¬(200 : Nat) ≠ 200), hcv]
    · right
      simp only [klinesFetchRun, if_pos hs]
      exact ⟨by trivial, append_ne_empty_left _ _ (append_ne_empty_left _ _
        (append_ne_empty_left _ _ (by decide))), .inl (by trivial)⟩

/-- A price fetch oracle that always succeeds with price 42. -/
def fetchPOk : String → PriceWire := fun _ => PriceWire.resp 200 "" (Except.ok 42)

/-- A klines fetch oracle that always succeeds with two rows. -/
def fetchKOk : String → Int → KlinesWire :=
  fun _ _ => KlinesWire.resp 200 ""
    (Except.ok [⟨1000, Except.ok 10⟩, ⟨2000, Except.ok 20⟩])

theorem priceFetchRun_discipline (symbol : String) (now : ℚ) (c : Option PriceEntry)
    (st : PriceCache) (w : PriceWire) :
    (∀ s, s ≠ symbol → (priceFetchRun symbol now c st w).cache s = st s) ∧
    ((priceFetchRun symbol now c st w).fetched = false →
      (priceFetchRun symbol now c st w).cache = st) ∧
    ((priceFetchRun symbol now c st w).error ≠ "" →
      (priceFetchRun symbol now c st w).cache = st) ∧
    ((priceFetchRun symbol now c st w).fetched = true →
      (priceFetchRun symbol now c st w).error = "" →
      ∃ p, (priceFetchRun symbol now c st w).value = some p ∧
        (priceFetchRun symbol now c st w).cache symbol = some ⟨now, p⟩) := by
  rcases priceFetchRun_disj symbol now c st w with ⟨p, hp⟩ | ⟨hcache, hne, _⟩
  · rw [hp]
    refine ⟨fun s hs => by simp [hs], ?_, ?_, ?_⟩
    · intro h; simp at h
    · intro h; exact absurd rfl h
    · intro _ _; exact ⟨p, rfl, by simp⟩
  · refine ⟨fun s _ => by rw [hcache], fun _ => hcache, fun _ => hcache, ?_⟩
    intro _ herr; exact absurd herr hne

theorem klinesFetchRun_discipline (key : String × Int) (now : ℚ) (c : Option KEntry)
    (st : KCache) (w : KlinesWire) :
    (∀ k, k ≠ key → (klinesFetchRun key now c st w).cache k = st k) ∧
    ((klinesFetchRun key now c st w).fetched = false →
      (klinesFetchRun key now c st w).cache = st) ∧
    ((klinesFetchRun key now c st w).error ≠ "" →
      (klinesFetchRun key now c st w).cache = st) ∧
    ((klinesFetchRun key now c st w).fetched = true →
      (klinesFetchRun key now c st w).error = "" →
      ∃ d, (klinesFetchRun key now c st w).value = some d ∧
        (klinesFetchRun key now c st w).cache key = some ⟨now, d⟩) := by
  rcases klinesFetchRun_disj key now c st w with ⟨body, r, rest, d, _, _, hp⟩ | ⟨hcache, hne, _⟩
  · rw [hp]
    refine ⟨fun k hk => by simp [hk], ?_, ?_, ?_⟩
    · intro h; simp at h
    · intro h; exact absurd rfl h
    · intro _ _; exact ⟨d, rfl, by simp⟩
  · refine ⟨fun k _ => by rw [hcache], fun _ => hcache, fun _ => hcache, ?_⟩
    intro _ herr; exact absurd herr hne

/-- **C4**: a value returned with an empty error is either a cache hit
younger than the TTL or freshly fetched; in particular, when the stored
entry has expired, an empty-error return carries the value fetched by
this very call (which is also stored at timestamp `now`). -/
theorem ttl_respected :
    (∀ (st : PriceCache) (symbol : String) (now ttl : ℚ) (fetch : String → PriceWire),
      ((get_price st symbol now ttl fetch).error = "" →
        (get_price st symbol now ttl fetch).fetched = true ∨
        ∃ c, st symbol = some c ∧ now - c.ts < ttl ∧
          (get_price st symbol now ttl fetch).value = some c.price) ∧
      (∀ c, st symbol = some c → ¬(now - c.ts < ttl) →
        (get_price st symbol now ttl fetch).error = "" →
        ∃ p, (get_price st symbol now ttl fetch).value = some p ∧
          (get_price st symbol now ttl fetch).cache symbol = some ⟨now, p⟩)) ∧
    (∀ (st : KCache) (symbol : String) (days : Int) (now ttl : ℚ)
      (fetch : String → Int → KlinesWire),
      ((get_klines st symbol days now ttl fetch).error = "" →
        (get_klines st symbol days now ttl fetch).fetched = true ∨
        ∃ c, st (symbol, days) = some c ∧ now - c.ts < ttl ∧
          (get_klines st symbol days now ttl fetch).value = some c.data) ∧
      (∀ c, st (symbol, days) = some c → ¬(now - c.ts < ttl) →
        (get_klines st symbol days now ttl fetch).error = "" →
        ∃ d, (get_klines st symbol days now ttl fetch).value = some d ∧
          (get_klines st symbol days now ttl fetch).cache (symbol, days) = some ⟨now, d⟩)) := by
  constructor
  · intro st symbol now ttl fetch
    constructor
    · intro _herr
      cases hst : st symbol with
      | none =>
        left
        simp only [get_price, hst]
        exact priceFetchRun_fetched _ _ _ _ _
      | some c =>
        by_cases hlt : now - c.ts < ttl
        · right
          exact ⟨c, rfl, hlt, by simp [get_price, hst, hlt]⟩
        · left
          simp only [get_price, hst, if_neg hlt]
          exact priceFetchRun_fetched _ _ _ _ _
    · intro c hc hlt herr
      simp only [get_price, hc, if_neg hlt] at herr ⊢
      exact (priceFetchRun_discipline symbol now (some c) st (fetch symbol)).2.2.2
        (priceFetchRun_fetched _ _ _ _ _) herr
  · intro st symbol days now ttl fetch
    constructor
    · intro _herr
      cases hst : st (symbol, days) with
      | none =>
        left
        simp only [get_klines, hst]
        exact klinesFetchRun_fetched _ _ _ _ _
      | some c =>
        by_cases hlt : now - c.ts < ttl
        · right
          exact ⟨c, rfl, hlt, by simp [get_klines, hst, hlt]⟩
        · left
          simp only [get_klines, hst, if_neg hlt]
          exact klinesFetchRun_fetched _ _ _ _ _
    · intro c hc hlt herr
      simp only [get_klines, hc, if_neg hlt] at herr ⊢
      exact (klinesFetchRun_discipline (symbol, days) now (some c) st _).2.2.2
        (klinesFetchRun_fetched _ _ _ _ _) herr

/-- Witness for **C4**: with an entry stored at time 0 and an expired TTL
at time 100 (resp. 200), a successful fetch yields an empty-error result
carrying the fresh value, stored at the current time. -/
theorem ttl_respected_witness :
    (¬((100 : ℚ) - 0 < 20)) ∧
    (∃ p, (get_price stPW "BTCUSDT" 100 20 fetchPOk).value = some p ∧
      (get_price stPW "BTCUSDT" 100 20 fetchPOk).cache "BTCUSDT" = some ⟨100, p⟩) ∧
    (∃ d, (get_klines stKW "BTCUSDT" 7 200 120 fetchKOk).value = some d ∧
      (get_klines stKW "BTCUSDT" 7 200 120 fetchKOk).cache ("BTCUSDT", 7) = some ⟨200, d⟩) := by
  refine ⟨by norm_num, ?_, ?_⟩
  · exact (ttl_respected.1 stPW "BTCUSDT" 100 20 fetchPOk).2 ⟨0, 7⟩ rfl (by norm_num)
      (by norm_num [get_price, stPW, fetchPOk, priceFetchRun])
  · exact (ttl_respected.2 stKW "BTCUSDT" 7 200 120 fetchKOk).2 ⟨0, ([1, 2], [10, 20])⟩ rfl
      (by norm_num)
      (by norm_num [get_klines, stKW, fetchKOk, klinesFetchRun, convertRows])

/-- **C5**: the cache entry for a key is written only by a successful
fresh fetch, which stores the fetched value with the current timestamp;
on a cache hit (no fetch), on any fetch failure (non-empty error), and at
every other key, the cache is unchanged. -/
theorem cache_write_discipline :
    (∀ (st : PriceCache) (symbol : String) (now ttl : ℚ) (fetch : String → PriceWire),
      (∀ s, s ≠ symbol → (get_price st symbol now ttl fetch).cache s = st s) ∧
      ((get_price st symbol now ttl fetch).fetched = false →
        (get_price st symbol now ttl fetch).cache = st) ∧
      ((get_price st symbol now ttl fetch).error ≠ "" →
        (get_price st symbol now ttl fetch).cache = st) ∧
      ((get_price st symbol now ttl fetch).fetched = true →
        (get_price st symbol now ttl fetch).error = "" →
        ∃ p, (get_price st symbol now ttl fetch).value = some p ∧
          (get_price st symbol now ttl fetch).cache symbol = some ⟨now, p⟩)) ∧
    (∀ (st : KCache) (symbol : String) (days : Int) (now ttl : ℚ)
      (fetch : String → Int → KlinesWire),
      (∀ k, k ≠ (symbol, days) → (get_klines st symbol days now ttl fetch).cache k = st k) ∧
      ((get_klines st symbol days now ttl fetch).fetched = false →
        (get_klines st symbol days now ttl fetch).cache = st) ∧
      ((get_klines st symbol days now ttl fetch).error ≠ "" →
        (get_klines st symbol days now ttl fetch).cache = st) ∧
      ((get_klines st symbol days now ttl fetch).fetched = true →
        (get_klines st symbol days now ttl fetch).error = "" →
        ∃ d, (get_klines st symbol days now ttl fetch).value = some d ∧
          (get_klines st symbol days now ttl fetch).cache (symbol, days) = some ⟨now, d⟩)) := by
  constructor
  · intro st symbol now ttl fetch
    cases hst : st symbol with
    | some c =>
      by_cases hlt : now - c.ts < ttl
      · refine ⟨?_, ?_, ?_, ?_⟩ <;> simp [get_price, hst, hlt]
      · simp only [get_price, hst, if_neg hlt]
        exact priceFetchRun_discipline symbol now (some c) st (fetch symbol)
    | none =>
      simp only [get_price, hst]
      exact priceFetchRun_discipline symbol now none st (fetch symbol)
  · intro st symbol days now ttl fetch
    cases hst : st (symbol, days) with
    | some c =>
      by_cases hlt : now - c.ts < ttl
      · refine ⟨?_, ?_, ?_, ?_⟩ <;> simp [get_klines, hst, hlt]
      · simp only [get_klines, hst, if_neg hlt]
        exact klinesFetchRun_discipline (symbol, days) now (some c) st _
    | none =>
      simp only [get_klines, hst]
      exact klinesFetchRun_discipline (symbol, days) now none st _

/-- Witness for **C5**: a failed fetch leaves the caches unchanged; a
successful fetch on an empty cache stores the fetched value at `now`. -/
theorem cache_write_discipline_witness :
    ((get_price stP0 "BTCUSDT" 0 20 fetchPW).cache = stP0) ∧
    (∃ p, (get_price stP0 "BTCUSDT" 0 20 fetchPOk).value = some p ∧
      (get_price stP0 "BTCUSDT" 0 20 fetchPOk).cache "BTCUSDT" = some ⟨0, p⟩) ∧
    ((get_klines stK0 "BTCUSDT" 7 0 120 fetchKW).cache = stK0) ∧
    (∃ d, (get_klines stK0 "BTCUSDT" 7 0 120 fetchKOk).value = some d ∧
      (get_klines stK0 "BTCUSDT" 7 0 120 fetchKOk).cache ("BTCUSDT", 7) = some ⟨0, d⟩) :=
  ⟨(cache_write_discipline.1 stP0 "BTCUSDT" 0 20 fetchPW).2.2.1 (by decide),
    (cache_write_discipline.1 stP0 "BTCUSDT" 0 20 fetchPOk).2.2.2 rfl rfl,
    (cache_write_discipline.2 stK0 "BTCUSDT" 7 0 120 fetchKW).2.2.1 (by decide),
    (cache_write_discipline.2 stK0 "BTCUSDT" 7 0 120 fetchKOk).2.2.2 rfl rfl⟩

/-- Witness for **C7**: empty caches, GET raising `ConnectionError`. -/
theorem miss_failure_returns_error_witness :
    ((get_price stP0 "BTCUSDT" 0 20 fetchPW).value = none ∧
      (get_price stP0 "BTCUSDT" 0 20 fetchPW).error ≠ "") ∧
    ((get_klines stK0 "BTCUSDT" 7 0 120 fetchKW).value = none ∧
      (get_klines stK0 "BTCUSDT" 7 0 120 fetchKW).error ≠ "") :=
  ⟨miss_failure_returns_error.1 stP0 "BTCUSDT" 0 20 fetchPW rfl trivial,
    miss_failure_returns_error.2 stK0 "BTCUSDT" 7 0 120 fetchKW rfl trivial⟩

/-- When no stored entry passes the TTL check, a call is exactly the
fetch-and-handle body run on the stored entry. -/
theorem get_price_run (st : PriceCache) (symbol : String) (now ttl : ℚ)
    (fetch : String → PriceWire) (h : noFreshHitP st symbol now ttl) :
    get_price st symbol now ttl fetch =
      priceFetchRun symbol now (st symbol) st (fetch symbol) := by
  cases hst : st symbol with
  | none => simp [get_price, hst]
  | some c => simp [get_price, hst, if_neg (h c hst)]

/-- When no stored entry passes the TTL check, a `get_klines` call is
exactly the fetch-and-handle body run on the stored entry. -/
theorem get_klines_run (st : KCache) (symbol : String) (days : Int) (now ttl : ℚ)
    (fetch : String → Int → KlinesWire) (h : noFreshHitK st (symbol, days) now ttl) :
    get_klines st symbol days now ttl fetch =
      klinesFetchRun (symbol, days) now (st (symbol, days)) st
        (fetch (intervalLimit days).1 (intervalLimit days).2) := by
  cases hst : st (symbol, days) with
  | none => simp [get_klines, hst]
  | some c => simp [get_klines, hst, if_neg (h c hst)]

theorem klinesFetchRun_value_shape (key : String × Int) (now : ℚ) (c : Option KEntry)
    (st : KCache) (w : KlinesWire)
    (hWFe : ∀ entry, c = some entry →
      entry.data.1 ≠ [] ∧ entry.data.1.length = entry.data.2.length) :
    ∀ xs ys, (klinesFetchRun key now c st w).value = some (xs, ys) →
      xs ≠ [] ∧ xs.length = ys.length := by
  intro xs ys hval
  rcases klinesFetchRun_disj key now c st w with ⟨body, r, rest, d, _, hcv, hp⟩ | ⟨_, _, hv⟩
  · rw [hp] at hval
    have hinj : d = (xs, ys) := Option.some.inj hval
    subst hinj
    exact ⟨convertRows_ne_nil r rest xs ys hcv, convertRows_lengths _ xs ys hcv⟩
  · rcases hv with hnone | ⟨entry, hc, hsome⟩
    · rw [hval] at hnone; cases hnone
    · have hinj : entry.data = (xs, ys) := Option.some.inj (hsome.symm.trans hval)
      rcases hWFe entry hc with ⟨h1, h2⟩
      rw [hinj] at h1 h2
      exact ⟨h1, h2⟩

theorem get_klines_value_shape (st : KCache) (symbol : String) (days : Int) (now ttl : ℚ)
    (fetch : String → Int → KlinesWire) (hWF : KCacheWF st) :
    ∀ xs ys, (get_klines st symbol days now ttl fetch).value = some (xs, ys) →
      xs ≠ [] ∧ xs.length = ys.length := by
  intro xs ys hval
  cases hst : st (symbol, days) with
  | some c =>
    by_cases hlt : now - c.ts < ttl
    · simp only [get_klines, hst, if_pos hlt] at hval
      have hinj : c.data = (xs, ys) := Option.some.inj hval
      have hwf := hWF (symbol, days) c hst
      rw [hinj] at hwf
      exact hwf
    · simp only [get_klines, hst, if_neg hlt] at hval
      exact klinesFetchRun_value_shape _ _ _ _ _
        (fun entry he => by cases he; exact hWF (symbol, days) c hst) xs ys hval
  | none =>
    simp only [get_klines, hst] at hval
    exact klinesFetchRun_value_shape _ _ _ _ _ (fun entry he => by cases he) xs ys hval

/-- The klines cache well-formedness is preserved by every `get_klines`
call, so `KCacheWF` holds in every reachable state (the initial caches
are empty). -/
theorem KCacheWF_preserved (st : KCache) (symbol : String) (days : Int) (now ttl : ℚ)
    (fetch : String → Int → KlinesWire) (h : KCacheWF st) :
    KCacheWF (get_klines st symbol days now ttl fetch).cache := by
  have hrun : ∀ (c : Option KEntry) (w : KlinesWire), KCacheWF (klinesFetchRun (symbol, days) now c st w).cache := by
    intro c w
    rcases klinesFetchRun_disj (symbol, days) now c st w with
      ⟨body, r, rest, d, _, hcv, hp⟩ | ⟨hcache, _, _⟩
    · rw [hp]
      intro k e hk
      have hk2 : (if k = (symbol, days) then some ⟨now, d⟩ else st k) = some e := hk
      by_cases hkk : k = (symbol, days)
      · rw [if_pos hkk] at hk2
        cases hk2
        obtain ⟨xs, ys⟩ := d
        exact ⟨convertRows_ne_nil r rest xs ys hcv, convertRows_lengths _ xs ys hcv⟩
      · rw [if_neg hkk] at hk2
        exact h k e hk2
    · rw [hcache]; exact h
  cases hst : st (symbol, days) with
  | some c =>
    by_cases hlt : now - c.ts < ttl
    · simpa [get_klines, hst, hlt] using h
    · simp only [get_klines, hst, if_neg hlt]
      exact hrun _ _
  | none =>
    simp only [get_klines, hst]
    exact hrun _ _

/-- **C1** (amended): when the fresh fetch attempt raises an exception
(network/transport failure, or an unparsable payload of a 200 response)
and a stored entry exists, regardless of its age, the call returns the
stored value together with a non-empty error message; a non-2xx HTTP
status, in contrast, returns no value even when an entry exists
(see the counterexample to the original claim). -/
theorem stale_fallback_on_exception :
    (∀ (st : PriceCache) (symbol : String) (now ttl : ℚ) (fetch : String → PriceWire)
      (c : PriceEntry), st symbol = some c → ¬(now - c.ts < ttl) →
      priceRaises (fetch symbol) →
      (get_price st symbol now ttl fetch).value = some c.price ∧
      (get_price st symbol now ttl fetch).error ≠ "") ∧
    (∀ (st : KCache) (symbol : String) (days : Int) (now ttl : ℚ)
      (fetch : String → Int → KlinesWire) (c : KEntry),
      st (symbol, days) = some c → ¬(now - c.ts < ttl) →
      klinesRaises (fetch (intervalLimit days).1 (intervalLimit days).2) →
      (get_klines st symbol days now ttl fetch).value = some c.data ∧
      (get_klines st symbol days now ttl fetch).error ≠ "") := by
  constructor
  · intro st symbol now ttl fetch c hc hlt hraises
    simp only [get_price, hc, if_neg hlt]
    cases hw : fetch symbol with
    | netFail e =>
      exact ⟨rfl, append_ne_empty_left _ _ (append_ne_empty_left _ _ (by decide))⟩
    | resp status body payload =>
      rw [hw] at hraises
      cases payload with
      | ok p => exact absurd hraises (by simp [priceRaises])
      | error e =>
        have hs : status = 200 := hraises
        subst hs
        exact ⟨rfl, append_ne_empty_left _ _ (append_ne_empty_left _ _ (by decide))⟩
  · intro st symbol days now ttl fetch c hc hlt hraises
    simp only [get_klines, hc, if_neg hlt]
    cases hw : fetch (intervalLimit days).1 (intervalLimit days).2 with
    | netFail e =>
      exact ⟨rfl, append_ne_empty_left _ _ (append_ne_empty_left _ _ (by decide))⟩
    | resp status body payload =>
      rw [hw] at hraises
      cases payload with
      | error e =>
        have hs : status = 200 := hraises
        subst hs
        exact ⟨rfl, append_ne_empty_left _ _ (append_ne_empty_left _ _ (by decide))⟩
      | ok rows =>
        obtain ⟨hs, hne, e, hcv⟩ := hraises
        subst hs
        cases rows with
        | nil => exact absurd rfl hne
        | cons r rest =>
          simp only [klinesFetchRun, if_neg (by omega : ¬(200 : Nat) ≠ 200), hcv]
          exact ⟨by trivial, append_ne_empty_left _ _ (append_ne_empty_left _ _ (by decide))⟩

/-- Witness for the amended **C1**: expired entries plus a GET raising
`ConnectionError` serve the stored price 7 (resp. stored series). -/
theorem stale_fallback_on_exception_witness :
    (¬((100 : ℚ) - 0 < 20)) ∧
    ((get_price stPW "BTCUSDT" 100 20 fetchPW).value = some 7 ∧
      (get_price stPW "BTCUSDT" 100 20 fetchPW).error ≠ "") ∧
    ((get_klines stKW "BTCUSDT" 7 200 120 fetchKW).value = some ([1, 2], [10, 20]) ∧
      (get_klines stKW "BTCUSDT" 7 200 120 fetchKW).error ≠ "") := by
  refine ⟨by norm_num, ?_, ?_⟩
  · exact stale_fallback_on_exception.1 stPW "BTCUSDT" 100 20 fetchPW ⟨0, 7⟩ rfl
      (by norm_num) trivial
  · exact stale_fallback_on_exception.2 stKW "BTCUSDT" 7 200 120 fetchKW
      ⟨0, ([1, 2], [10, 20])⟩ rfl (by norm_num) trivial

/-- Price cache of the **C1** counterexample: a BTCUSDT entry stored at
time 0 with price 5. -/
def stP500 : PriceCache := fun s => if s = "BTCUSDT" then some ⟨0, 5⟩ else none

/-- A price fetch oracle that always answers HTTP 500. -/
def fetchP500 : String → PriceWire := fun _ => PriceWire.resp 500 "oops" (Except.ok 0)

/-- Counterexample to **C1** as stated: at time 100 with TTL 20 the
stored entry (price 5, stored at 0) has expired; the fetch fails with a
non-2xx HTTP status — one of the failure kinds the claim covers — yet
`get_price` returns no value instead of the stored price: the stale
fallback does not apply to non-2xx responses. -/
theorem stale_fallback_counterexample :
    stP500 "BTCUSDT" = some ⟨0, 5⟩ ∧
    ¬((100 : ℚ) - 0 < 20) ∧
    priceFails (fetchP500 "BTCUSDT") ∧
    (get_price stP500 "BTCUSDT" 100 20 fetchP500).value = none ∧
    ¬((get_price stP500 "BTCUSDT" 100 20 fetchP500).value = some 5) := by
  have hval : (get_price stP500 "BTCUSDT" 100 20 fetchP500).value = none := by
    norm_num [get_price, stP500, fetchP500, priceFetchRun]
  refine ⟨rfl, by norm_num, ?_, hval, ?_⟩
  · simp only [fetchP500, priceFails]
    decide
  · rw [hval]
    intro h
    cases h

/-- A klines fetch oracle that always answers 200 with an empty list. -/
def fetchKEmpty : String → Int → KlinesWire :=
  fun _ _ => KlinesWire.resp 200 "" (Except.ok [])

/-- **C6**: a klines fetch returning an empty list is treated as a
failure: `get_klines` returns no value and the non-empty error
`"Sin datos de klines."`, and the history callback renders a figure with
no trace alongside that message; conversely, under the cache invariant,
every series returned by `get_klines` is non-empty. -/
theorem empty_klines_no_data :
    (∀ (st : KCache) (symbol : String) (days : Int) (now ttl : ℚ)
      (fetch : String → Int → KlinesWire) (body : String),
      noFreshHitK st (symbol, days) now ttl →
      fetch (intervalLimit days).1 (intervalLimit days).2 =
        KlinesWire.resp 200 body (Except.ok []) →
      (get_klines st symbol days now ttl fetch).value = none ∧
      (get_klines st symbol days now ttl fetch).error = "Sin datos de klines." ∧
      (actualizar_historico st now ttl fetch symbol days).1.traces = [] ∧
      (actualizar_historico st now ttl fetch symbol days).2 = "Sin datos de klines.") ∧
    (∀ (st : KCache) (symbol : String) (days : Int) (now ttl : ℚ)
      (fetch : String → Int → KlinesWire), KCacheWF st →
      ∀ xs ys, (get_klines st symbol days now ttl fetch).value = some (xs, ys) →
        xs ≠ []) := by
  constructor
  · intro st symbol days now ttl fetch body hno hfetch
    have hrun := get_klines_run st symbol days now ttl fetch hno
    rw [hfetch] at hrun
    have hva : (get_klines st symbol days now ttl fetch).value = none := by
      rw [hrun]; rfl
    have her : (get_klines st symbol days now ttl fetch).error = "Sin datos de klines." := by
      rw [hrun]; rfl
    refine ⟨hva, her, ?_, ?_⟩
    · simp only [actualizar_historico, hva]
    · simp only [actualizar_historico, hva]
      exact her
  · intro st symbol days now ttl fetch hWF xs ys hval
    exact (get_klines_value_shape st symbol days now ttl fetch hWF xs ys hval).1

/-- Witness for **C6**: an empty-list fetch against the empty cache, and
a nonempty series served from the one-entry witness cache. -/
theorem empty_klines_no_data_witness :
    ((get_klines stK0 "BTCUSDT" 7 0 120 fetchKEmpty).value = none ∧
      (get_klines stK0 "BTCUSDT" 7 0 120 fetchKEmpty).error = "Sin datos de klines." ∧
      (actualizar_historico stK0 0 120 fetchKEmpty "BTCUSDT" 7).1.traces = [] ∧
      (actualizar_historico stK0 0 120 fetchKEmpty "BTCUSDT" 7).2 = "Sin datos de klines.") ∧
    ([1, 2] : List ℚ) ≠ [] := by
  constructor
  · exact empty_klines_no_data.1 stK0 "BTCUSDT" 7 0 120 fetchKEmpty ""
      (fun _ h => Option.noConfusion h) rfl
  · exact empty_klines_no_data.2 stKW "BTCUSDT" 7 5 120 fetchKW
      (by
        intro k e h
        have h2 : (if k = ("BTCUSDT", 7) then some ⟨0, ([1, 2], [10, 20])⟩ else none) = some e := h
        by_cases hk : k = ("BTCUSDT", 7)
        · rw [if_pos hk] at h2
          cases h2
          exact ⟨by decide, by decide⟩
        · rw [if_neg hk] at h2
          cases h2)
      [1, 2] [10, 20] (by norm_num [get_klines, stKW])

/-- The concrete formatting fact of **C9**. -/
theorem format67890 : formatCommaF6 (mkRat 67890123456 1000000) = "67,890.123456" := by
  decide

/-- A price fetch oracle that always succeeds with 67890.123456. -/
def fetchP678 : String → PriceWire :=
  fun _ => PriceWire.resp 200 "" (Except.ok (mkRat 67890123456 1000000))

/-- **C9**: a fresh successful fetch of 67890.123456 for BTCUSDT renders
exactly `"BTCUSDT = 67,890.123456 USDT"` with an empty error; when no
price is available the callback renders the placeholder `"—"` with the
error text. -/
theorem price_render :
    (∀ (st : PriceCache) (now ttl : ℚ) (fetch : String → PriceWire) (body : String),
      noFreshHitP st "BTCUSDT" now ttl →
      fetch "BTCUSDT" = PriceWire.resp 200 body (Except.ok (mkRat 67890123456 1000000)) →
      actualizar_precio st now ttl fetch "BTCUSDT" =
        ("BTCUSDT = 67,890.123456 USDT", "")) ∧
    (∀ (st : PriceCache) (now ttl : ℚ) (fetch : String → PriceWire) (symbol : String),
      (get_price st symbol now ttl fetch).value = none →
      actualizar_precio st now ttl fetch symbol =
        ("—", (get_price st symbol now ttl fetch).error)) := by
  constructor
  · intro st now ttl fetch body hno hfetch
    have hrun := get_price_run st "BTCUSDT" now ttl fetch hno
    rw [hfetch] at hrun
    have hv : (get_price st "BTCUSDT" now ttl fetch).value =
        some (mkRat 67890123456 1000000) := by
      rw [hrun]; rfl
    have he : (get_price st "BTCUSDT" now ttl fetch).error = "" := by
      rw [hrun]; rfl
    simp only [actualizar_precio, hv, he, format67890]
    rfl
  · intro st now ttl fetch symbol hval
    simp only [actualizar_precio, hval]

/-- Witness for **C9**: the success rendering on the empty cache, and the
placeholder rendering when the GET raises on the empty cache. -/
theorem price_render_witness :
    actualizar_precio stP0 0 20 fetchP678 "BTCUSDT" =
      ("BTCUSDT = 67,890.123456 USDT", "") ∧
    actualizar_precio stP0 0 20 fetchPW "BTCUSDT" =
      ("—", (get_price stP0 "BTCUSDT" 0 20 fetchPW).error) :=
  ⟨price_render.1 stP0 0 20 fetchP678 "" (fun _ h => Option.noConfusion h) rfl,
    price_render.2 stP0 0 20 fetchPW "BTCUSDT" rfl⟩

/-- **C10**: a `(value, error)` pair with an empty error always carries a
value; and, under the cache invariant, every series a `get_klines` call
returns is a pair of lists of equal length. -/
theorem value_error_invariant :
    (∀ (st : PriceCache) (symbol : String) (now ttl : ℚ) (fetch : String → PriceWire),
      (get_price st symbol now ttl fetch).error = "" →
      ∃ p, (get_price st symbol now ttl fetch).value = some p) ∧
    (∀ (st : KCache) (symbol : String) (days : Int) (now ttl : ℚ)
      (fetch : String → Int → KlinesWire),
      ((get_klines st symbol days now ttl fetch).error = "" →
        ∃ d, (get_klines st symbol days now ttl fetch).value = some d) ∧
      (KCacheWF st → ∀ xs ys,
        (get_klines st symbol days now ttl fetch).value = some (xs, ys) →
        xs.length = ys.length)) := by
  constructor
  · intro st symbol now ttl fetch herr
    cases hst : st symbol with
    | some c =>
      by_cases hlt : now - c.ts < ttl
      · exact ⟨c.price, by simp [get_price, hst, hlt]⟩
      · simp only [get_price, hst, if_neg hlt] at herr ⊢
        rcases priceFetchRun_disj symbol now (some c) st (fetch symbol) with
          ⟨p, hp⟩ | ⟨_, hne, _⟩
        · exact ⟨p, by rw [hp]⟩
        · exact absurd herr hne
    | none =>
      simp only [get_price, hst] at herr ⊢
      rcases priceFetchRun_disj symbol now none st (fetch symbol) with
        ⟨p, hp⟩ | ⟨_, hne, _⟩
      · exact ⟨p, by rw [hp]⟩
      · exact absurd herr hne
  · intro st symbol days now ttl fetch
    constructor
    · intro herr
      cases hst : st (symbol, days) with
      | some c =>
        by_cases hlt : now - c.ts < ttl
        · exact ⟨c.data, by simp [get_klines, hst, hlt]⟩
        · simp only [get_klines, hst, if_neg hlt] at herr ⊢
          rcases klinesFetchRun_disj (symbol, days) now (some c) st
            (fetch (intervalLimit days).1 (intervalLimit days).2) with
            ⟨body, r, rest, d, _, _, hp⟩ | ⟨_, hne, _⟩
          · exact ⟨d, by rw [hp]⟩
          · exact absurd herr hne
      | none =>
        simp only [get_klines, hst] at herr ⊢
        rcases klinesFetchRun_disj (symbol, days) now none st
          (fetch (intervalLimit days).1 (intervalLimit days).2) with
          ⟨body, r, rest, d, _, _, hp⟩ | ⟨_, hne, _⟩
        · exact ⟨d, by rw [hp]⟩
        · exact absurd herr hne
    · intro hWF xs ys hval
      exact (get_klines_value_shape st symbol days now ttl fetch hWF xs ys hval).2

/-- Witness for **C10**: successful fetches on the empty caches, and the
equal-length fact on the one-entry witness cache. -/
theorem value_error_invariant_witness :
    (∃ p, (get_price stP0 "BTCUSDT" 0 20 fetchPOk).value = some p) ∧
    (∃ d, (get_klines stK0 "BTCUSDT" 7 0 120 fetchKOk).value = some d) ∧
    ([1, 2] : List ℚ).length = ([10, 20] : List ℚ).length := by
  refine ⟨?_, ?_, ?_⟩
  · exact value_error_invariant.1 stP0 "BTCUSDT" 0 20 fetchPOk rfl
  · exact (value_error_invariant.2 stK0 "BTCUSDT" 7 0 120 fetchKOk).1 rfl
  · exact (value_error_invariant.2 stKW "BTCUSDT" 7 5 120 fetchKW).2
      (by
        intro k e h
        have h2 : (if k = ("BTCUSDT", 7) then some ⟨0, ([1, 2], [10, 20])⟩ else none) = some e := h
        by_cases hk : k = ("BTCUSDT", 7)
        · rw [if_pos hk] at h2
          cases h2
          exact ⟨by decide, by decide⟩
        · rw [if_neg hk] at h2
          cases h2)
      [1, 2] [10, 20] (by norm_num [get_klines, stKW])

end AppDash
